import Mathlib

/-!
Shallow embedding of the Detroit block-analytics address/block pipeline
(src/unnamed/part_003 and src/lib/block-detector.js) and proofs about it.

Strings are modelled as Lean `String`/`List Char` (the inputs are ASCII);
JS `null`/`undefined` arguments are modelled as `Option`; JS numbers that
are always integers in this code are modelled as `Nat`/`Int`.
-/

namespace DBA

/-! ### Character classes (ASCII fragments of the JS classes used here) -/

/-- JS regex `\d`. -/
def isDigitCh (c : Char) : Bool := decide (48 ≤ c.toNat ∧ c.toNat ≤ 57)

/-- JS regex `\s` (and `String.prototype.trim` white space), ASCII part. -/
def isWSCh (c : Char) : Bool := decide (c.toNat = 32 ∨ (9 ≤ c.toNat ∧ c.toNat ≤ 13))

/-- JS regex `.` : any character except line terminators. -/
def isDotCh (c : Char) : Bool :=
  decide (¬ (c.toNat = 10 ∨ c.toNat = 13 ∨ c.toNat = 8232 ∨ c.toNat = 8233))

/-- ASCII `String.prototype.toUpperCase`, per character. -/
def toUpperCh (c : Char) : Char :=
  if 97 ≤ c.toNat ∧ c.toNat ≤ 122 then Char.ofNat (c.toNat - 32) else c

/-- ASCII `String.prototype.toLowerCase`, per character. -/
def toLowerCh (c : Char) : Char :=
  if 65 ≤ c.toNat ∧ c.toNat ≤ 90 then Char.ofNat (c.toNat + 32) else c

/-- Characters kept by `normalizeStreetName`: the class `[a-z0-9_]`. -/
def isKeptCh (c : Char) : Bool :=
  decide ((97 ≤ c.toNat ∧ c.toNat ≤ 122) ∨ (48 ≤ c.toNat ∧ c.toNat ≤ 57) ∨ c.toNat = 95)

/-- `String.prototype.trim`: drop white space from both ends. -/
def trimChars (l : List Char) : List Char :=
  ((l.dropWhile isWSCh).reverse.dropWhile isWSCh).reverse

/-! ### normalizeStreetName (identical in part_003 and block-detector.js) -/

/-- `.replace(/\s+/g, '_')`: each maximal white-space run becomes one `_`. -/
def collapseWS : List Char → List Char
  | [] => []
  | [c] => if isWSCh c then ['_'] else [c]
  | c :: d :: cs =>
    if isWSCh c then
      if isWSCh d then collapseWS (d :: cs) else '_' :: collapseWS (d :: cs)
    else c :: collapseWS (d :: cs)

/-- Body of `normalizeStreetName` on the character list:
lowercase, trim, collapse white space to `_`, strip everything else. -/
def normChars (l : List Char) : List Char :=
  (collapseWS (trimChars (l.map toLowerCh))).filter isKeptCh

/-- `normalizeStreetName(name)` for a string argument.
The JS guard `if (!name) return ''` fires on the empty string. -/
def normalizeStreetName (s : String) : String :=
  if s = "" then "" else String.mk (normChars s.data)

/-- `normalizeStreetName` including the JS `null`/`undefined` argument case
(falsy, so the same guard returns the empty string). -/
def normalizeStreetNameOpt : Option String → String
  | none => ""
  | some s => normalizeStreetName s

/-! ### The two address regexes of parseAddress, as ordered-backtracking matchers

`primaryMatch` implements
`^(\d+)(?:-\d+)?\s+(?:(N|S|E|W|NORTH|SOUTH|EAST|WEST)\s+)?(.+?)\s+(ST|...|TERRACE)\.?$`
and `fallbackMatch` implements `^(\d+)\s+(.+)$`, both with the JS
leftmost/greedy/lazy backtracking order: a greedy `X+` tries the longest
prefix first, a lazy `.+?` the shortest, an optional group tries presence
before absence, and an alternation tries its branches left to right. -/

/-- All splits `(a, b)` of `l` with `a ++ b = l`, `a` nonempty, every
character of `a` satisfying `p` — shortest `a` first (lazy order). -/
def plusSplitsAsc (p : Char → Bool) : List Char → List (List Char × List Char)
  | [] => []
  | c :: cs =>
    if p c then ([c], cs) :: (plusSplitsAsc p cs).map (fun ab => (c :: ab.1, ab.2))
    else []

/-- Same splits, longest `a` first (greedy order). -/
def plusSplitsDesc (p : Char → Bool) (l : List Char) : List (List Char × List Char) :=
  (plusSplitsAsc p l).reverse

/-- Strip a literal token from the front, if present. -/
def stripTok (tok l : List Char) : Option (List Char) :=
  if tok.isPrefixOf l then some (l.drop tok.length) else none

def dirTokens : List (List Char) :=
  ["N", "S", "E", "W", "NORTH", "SOUTH", "EAST", "WEST"].map String.data

def typeTokens : List (List Char) :=
  ["ST", "STREET", "AVE", "AVENUE", "RD", "ROAD", "BLVD", "BOULEVARD", "DR",
   "DRIVE", "LN", "LANE", "CT", "COURT", "PL", "PLACE", "WAY", "PKWY",
   "PARKWAY", "HWY", "HIGHWAY", "CIR", "CIRCLE", "TER", "TERRACE"].map String.data

/-- `(?:-\d+)?` : candidate rests, presence (greedy digits) before absence. -/
def hyphenOpts : List Char → List (List Char)
  | '-' :: rest => ((plusSplitsDesc isDigitCh rest).map (·.2)) ++ ['-' :: rest]
  | l => [l]

/-- `(?:(N|S|E|W|NORTH|SOUTH|EAST|WEST)\s+)?` : candidate
(captured directional, rest) pairs, presence before absence. -/
def dirOpts (l : List Char) : List (Option (List Char) × List Char) :=
  (dirTokens.flatMap fun d =>
    match stripTok d l with
    | some r => (plusSplitsDesc isWSCh r).map (fun ab => (some d, ab.2))
    | none => []) ++ [(none, l)]

/-- `\.?` : candidate rests, presence before absence. -/
def dotOpts : List Char → List (List Char)
  | '.' :: rest => [rest, '.' :: rest]
  | l => [l]

/-- The primary address regex. Returns captures
(number, directional, street name, street type). -/
def primaryMatch (l : List Char) :
    Option (List Char × Option (List Char) × List Char × List Char) :=
  (plusSplitsDesc isDigitCh l).findSome? fun nr =>
  (hyphenOpts nr.2).findSome? fun r2 =>
  (plusSplitsDesc isWSCh r2).findSome? fun wr =>
  (dirOpts wr.2).findSome? fun dr =>
  (plusSplitsAsc isDotCh dr.2).findSome? fun nmr =>
  (plusSplitsDesc isWSCh nmr.2).findSome? fun wr2 =>
  typeTokens.findSome? fun t =>
  (stripTok t wr2.2).bind fun r7 =>
  (dotOpts r7).findSome? fun r8 =>
  if r8 = [] then some (nr.1, dr.1, nmr.1, t) else none

/-- The fallback regex `^(\d+)\s+(.+)$`. Returns (number, remaining text). -/
def fallbackMatch (l : List Char) : Option (List Char × List Char) :=
  (plusSplitsDesc isDigitCh l).findSome? fun nr =>
  (plusSplitsDesc isWSCh nr.2).findSome? fun wr =>
  if wr.2 ≠ [] ∧ wr.2.all isDotCh then some (nr.1, wr.2) else none

/-- `parseInt` on a captured digit run. -/
def natOfDigits (l : List Char) : Nat :=
  l.foldl (fun n c => n * 10 + (c.toNat - 48)) 0

/-! ### parseAddress -/

structure ParsedAddress where
  houseNumber : Nat
  directional : Option String
  streetName : String
  streetType : Option String
  fullStreet : String
deriving DecidableEq

/-- `parseAddress(address)` from part_003. `none` input models JS
`null`/`undefined`/non-string; the JS falsiness guard also rejects `""`. -/
def parseAddress : Option String → Option ParsedAddress
  | none => none
  | some s =>
    if s = "" then none
    else
      let cleaned := (trimChars s.data).map toUpperCh
      match primaryMatch cleaned with
      | some (num, dir, name, ty) =>
        some {
          houseNumber := natOfDigits num
          directional := dir.map fun d => String.mk (d.take 1)
          streetName := normalizeStreetName (String.mk ((dir.getD []) ++ ' ' :: name))
          streetType := some (String.mk ty)
          fullStreet := String.mk
            ((match dir with | some d => d ++ [' '] | none => []) ++ name ++ ' ' :: ty) }
      | none =>
        match fallbackMatch cleaned with
        | some (num, rest) =>
          some {
            houseNumber := natOfDigits num
            directional := none
            streetName := normalizeStreetName (String.mk rest)
            streetType := none
            fullStreet := String.mk rest }
        | none => none

/-! ### generateBlockIdFromAddress -/

/-- `generateBlockIdFromAddress(parsedAddress, blockSize = 100)`.
The JS guard `!parsedAddress || !parsedAddress.houseNumber` is truthy for a
null argument and for house number 0.  `Math.floor(h / bs) * bs` is `Nat`
division for the nonnegative integers that occur here (the model takes
`blockSize ≥ 1`, as in every call site; `blockSize = 0` would be JS
`Infinity` arithmetic, outside this embedding). -/
def generateBlockIdFromAddress (p : Option ParsedAddress) (blockSize : Nat) :
    Option String :=
  match p with
  | none => none
  | some pa =>
    if pa.houseNumber = 0 then none
    else
      some (pa.streetName ++ "_" ++ toString (pa.houseNumber / blockSize * blockSize)
        ++ "_" ++ toString (pa.houseNumber / blockSize * blockSize + blockSize - 1))

/-! ### detectBlockBoundaries -/

/-- A parcel record: `pid` stands for all the spread-through fields of the
JS parcel object (its identity), `address` is the field the pipeline reads. -/
structure Parcel where
  pid : Nat
  address : Option String
deriving DecidableEq

/-- A parcel enriched with its parse result (the JS `{...parcel, parsed}`). -/
structure PParcel where
  parcel : Parcel
  parsed : ParsedAddress
deriving DecidableEq

/-- A boundary group; `stop` models the JS field `end` (a Lean keyword). -/
structure Boundary where
  start : Nat
  stop : Nat
  addresses : List PParcel
deriving DecidableEq

/-- Stable insertion keeping existing elements with an equal or smaller
house number in front (so a left fold reproduces the stable JS
`sort((a, b) => a.parsed.houseNumber - b.parsed.houseNumber)`). -/
def insertByNumber (a : PParcel) : List PParcel → List PParcel
  | [] => [a]
  | b :: bs =>
    if a.parsed.houseNumber < b.parsed.houseNumber then a :: b :: bs
    else b :: insertByNumber a bs

def sortByNumber (l : List PParcel) : List PParcel :=
  l.foldl (fun acc a => insertByNumber a acc) []

/-- The `.map(parseAddress).filter(parsed && parsed.houseNumber)` stage:
keep only parcels that parse with a nonzero (truthy) house number. -/
def detectFiltered (addrs : List Parcel) : List PParcel :=
  addrs.filterMap fun a =>
    match parseAddress a.address with
    | some pa => if pa.houseNumber ≠ 0 then some ⟨a, pa⟩ else none
    | none => none

def detectSorted (addrs : List Parcel) : List PParcel :=
  sortByNumber (detectFiltered addrs)

/-- The main loop of `detectBlockBoundaries`: `prev` is
`sorted[i-1].parsed.houseNumber`, `cur` the block being grown. -/
def detectLoop (t : Int) (prev : Nat) (cur : Boundary) : List PParcel → List Boundary
  | [] => [cur]
  | a :: rest =>
    let n := a.parsed.houseNumber
    if (n : Int) - (prev : Int) > t then
      { cur with stop := prev } ::
        detectLoop t n ⟨n, n, [a]⟩ rest
    else
      detectLoop t n { cur with stop := n, addresses := cur.addresses ++ [a] } rest

/-- `detectBlockBoundaries(addresses, gapThreshold = 50)`. -/
def detectBlockBoundaries (addrs : List Parcel) (t : Int) : List Boundary :=
  match detectSorted addrs with
  | [] => []
  | f :: rest =>
    detectLoop t f.parsed.houseNumber
      ⟨f.parsed.houseNumber, f.parsed.houseNumber, [f]⟩ rest

/-! ### assignBlockIds -/

/-- One output record of `assignBlockIds`.  `parsed` is the spread-in parse
result (absent on parse-error records); JS marks errors with a
`parse_error: true` field, whose absence is modelled as `false`. -/
structure ResultRec where
  parcel : Parcel
  parsed : Option ParsedAddress
  block_id : Option String
  parse_error : Bool
  block_method : Option String
deriving DecidableEq

/-- Per-block running statistics.  The JS initial sentinels
`minNumber: Infinity` / `maxNumber: -Infinity` are modelled as `none`
(each is overwritten by the first real number, as `Math.min(Infinity, n) = n`). -/
structure BlockStats where
  count : Nat
  minNumber : Option Nat
  maxNumber : Option Nat
  streetName : String
deriving DecidableEq

abbrev StatsMap := List (Option String × BlockStats)

/-- JS `Map.get`. -/
def alGet (k : Option String) (m : StatsMap) : Option BlockStats :=
  (m.find? fun e => decide (e.1 = k)).map (·.2)

/-- JS `Map.set`: overwrite the existing entry or append a new one. -/
def alSet (k : Option String) (v : BlockStats) : StatsMap → StatsMap
  | [] => [(k, v)]
  | e :: rest => if e.1 = k then (k, v) :: rest else e :: alSet k v rest

/-- The stats update performed for one assigned parcel: create the entry if
missing, then bump `count` and fold the house number into min/max. -/
def bumpStats (m : StatsMap) (k : Option String) (full : String) (hn : Nat) :
    StatsMap :=
  let m1 := if (alGet k m).isSome then m else alSet k ⟨0, none, none, full⟩ m
  match alGet k m1 with
  | some s =>
    alSet k
      ⟨s.count + 1,
       some (match s.minNumber with | none => hn | some mn => min mn hn),
       some (match s.maxNumber with | none => hn | some mx => max mx hn),
       s.streetName⟩ m1
  | none => m1

abbrev GroupMap := List (String × List PParcel)

/-- Street grouping: `if (!streetGroups.has(key)) set(key, []); get(key).push(...)`. -/
def addToGroup (k : String) (v : PParcel) : GroupMap → GroupMap
  | [] => [(k, [v])]
  | e :: rest => if e.1 = k then (k, e.2 ++ [v]) :: rest else e :: addToGroup k v rest

def mkErrRec (p : Parcel) : ResultRec := ⟨p, none, none, true, none⟩

/-- The first loop of `assignBlockIds`: push a parse-error record or file
the parcel under its normalized street name. -/
def phase1Step (acc : List ResultRec × GroupMap) (p : Parcel) :
    List ResultRec × GroupMap :=
  match parseAddress p.address with
  | none => (acc.1 ++ [mkErrRec p], acc.2)
  | some pa => (acc.1, addToGroup pa.streetName ⟨p, pa⟩ acc.2)

def phase1 (parcels : List Parcel) : List ResultRec × GroupMap :=
  parcels.foldl phase1Step ([], [])

/-- Fixed-size mode, one parcel of one street. -/
def fixedStep (blockSize : Nat) (acc : List ResultRec × StatsMap) (pp : PParcel) :
    List ResultRec × StatsMap :=
  let bid := generateBlockIdFromAddress (some pp.parsed) blockSize
  (acc.1 ++ [⟨pp.parcel, some pp.parsed, bid, false, some "fixed_size"⟩],
   bumpStats acc.2 bid pp.parsed.fullStreet pp.parsed.houseNumber)

/-- Natural mode, one boundary group of one street: every address of the
group gets the block id derived from the group's start number. -/
def boundaryAssign (blockSize : Nat) (streetName : String)
    (acc : List ResultRec × StatsMap) (b : Boundary) : List ResultRec × StatsMap :=
  let bs := b.start / blockSize * blockSize
  let bid := streetName ++ "_" ++ toString bs ++ "_" ++ toString (bs + blockSize - 1)
  b.addresses.foldl
    (fun acc2 a =>
      (acc2.1 ++ [⟨a.parcel, some a.parsed, some bid, false, some "natural_boundary"⟩],
       bumpStats acc2.2 (some bid) a.parsed.fullStreet a.parsed.houseNumber))
    acc

/-- Processing of one street group.  In natural mode the JS code hands the
enriched parcels to `detectBlockBoundaries`, which re-parses their
`address` field; handing over the bare parcels is the same computation. -/
def streetStep (opts_blockSize : Nat) (opts_natural : Bool) (opts_gap : Int)
    (acc : List ResultRec × StatsMap) (g : String × List PParcel) :
    List ResultRec × StatsMap :=
  if opts_natural then
    (detectBlockBoundaries (g.2.map (·.parcel)) opts_gap).foldl
      (boundaryAssign opts_blockSize g.1) acc
  else
    g.2.foldl (fixedStep opts_blockSize) acc

structure Summary where
  totalParcels : Nat
  successfullyAssigned : Nat
  parseErrors : Nat
  uniqueBlocks : Nat
  uniqueStreets : Nat
deriving DecidableEq

structure AssignResult where
  parcels : List ResultRec
  blockStats : StatsMap
  summary : Summary
deriving DecidableEq

structure AssignOptions where
  blockSize : Nat := 100
  useNaturalBoundaries : Bool := false
  gapThreshold : Int := 50
deriving DecidableEq

/-- JS truthiness of a block id (`results.filter(r => r.block_id)`):
false for null and for the empty string. -/
def jsTruthyId : Option String → Bool
  | none => false
  | some s => decide (s ≠ "")

/-- `assignBlockIds(parcels, options = {})`. -/
def assignBlockIds (parcels : List Parcel) (opts : AssignOptions) : AssignResult :=
  let p1 := phase1 parcels
  let fin := p1.2.foldl
    (streetStep opts.blockSize opts.useNaturalBoundaries opts.gapThreshold)
    (p1.1, [])
  { parcels := fin.1
    blockStats := fin.2
    summary :=
      { totalParcels := parcels.length
        successfullyAssigned := (fin.1.filter fun r => jsTruthyId r.block_id).length
        parseErrors := (fin.1.filter (·.parse_error)).length
        uniqueBlocks := fin.2.length
        uniqueStreets := p1.2.length } }

/-! ### validateBlockAssignments -/

structure Issue where
  type : String
  blockId : String
  message : String
  severity : String
deriving DecidableEq

/-- `Object.fromEntries` turns the `null` Map key into the string "null". -/
def keyStr : Option String → String
  | none => "null"
  | some s => s

/-- Issues produced for one blockStats entry.  JS computes
`expectedCount = Math.floor((max - min) / 2) + 1` and compares
`count < expectedCount * 0.3` in doubles; for the integer magnitudes that
occur the double comparison coincides with the exact rational one, written
here as `10 * count < 3 * expected`.  The `none` (infinite-sentinel) cases
make `expectedCount * 0.3 = -Infinity`, so no sparse issue is possible. -/
def validateIssuesFor (k : Option String) (s : BlockStats) : List Issue :=
  let small : List Issue :=
    if s.count < 3 then
      [⟨"small_block", keyStr k,
        "Block " ++ keyStr k ++ " has only " ++ toString s.count ++ " parcels",
        "info"⟩]
    else []
  match s.maxNumber, s.minNumber with
  | some mx, some mn =>
    let range : Int := (mx : Int) - (mn : Int)
    let expected : Int := Int.fdiv range 2 + 1
    (if 10 * (s.count : Int) < 3 * expected then
      [⟨"sparse_block", keyStr k,
        "Block " ++ keyStr k ++ " has only " ++ toString s.count ++
          " parcels but spans " ++ toString range ++ " numbers",
        "warning"⟩]
      else []) ++ small
  | _, _ => small

/-- `validateBlockAssignments(assignments)`: destructures `blockStats`,
collects issues per entry, and is `valid` iff no issue has severity
"error". -/
def validateBlockAssignments (assignments : AssignResult) : Bool × List Issue :=
  let issues := assignments.blockStats.flatMap fun e => validateIssuesFor e.1 e.2
  (decide ((issues.filter fun i => i.severity = "error").length = 0), issues)

/-! ### Closed forms of the assignBlockIds folds -/

/-- Error records contributed by one parcel in the grouping loop. -/
def errOf (p : Parcel) : List ResultRec :=
  match parseAddress p.address with
  | none => [mkErrRec p]
  | some _ => []

/-- Group-map update contributed by one parcel in the grouping loop. -/
def groupUpd (g : GroupMap) (p : Parcel) : GroupMap :=
  match parseAddress p.address with
  | none => g
  | some pa => addToGroup pa.streetName ⟨p, pa⟩ g

/-- The parcels that parse, paired with their parse results. -/
def parsables (parcels : List Parcel) : List PParcel :=
  parcels.filterMap fun p => (parseAddress p.address).map fun pa => ⟨p, pa⟩

/-- A parcel whose address does not parse. -/
def unparsable (p : Parcel) : Bool := (parseAddress p.address).isNone

def fixedRec (blockSize : Nat) (pp : PParcel) : ResultRec :=
  ⟨pp.parcel, some pp.parsed, generateBlockIdFromAddress (some pp.parsed) blockSize,
   false, some "fixed_size"⟩

def fixedUpd (blockSize : Nat) (s : StatsMap) (pp : PParcel) : StatsMap :=
  bumpStats s (generateBlockIdFromAddress (some pp.parsed) blockSize)
    pp.parsed.fullStreet pp.parsed.houseNumber

def boundaryBid (blockSize : Nat) (streetName : String) (b : Boundary) : String :=
  streetName ++ "_" ++ toString (b.start / blockSize * blockSize) ++ "_"
    ++ toString (b.start / blockSize * blockSize + blockSize - 1)

def natRec (blockSize : Nat) (streetName : String) (b : Boundary) (a : PParcel) :
    ResultRec :=
  ⟨a.parcel, some a.parsed, some (boundaryBid blockSize streetName b), false,
   some "natural_boundary"⟩

def boundaryUpd (blockSize : Nat) (streetName : String) (s : StatsMap) (b : Boundary) :
    StatsMap :=
  b.addresses.foldl
    (fun s3 a => bumpStats s3 (some (boundaryBid blockSize streetName b))
      a.parsed.fullStreet a.parsed.houseNumber) s

/-- Records contributed by one street group. -/
def streetRecs (bs : Nat) (nat : Bool) (gap : Int) (g : String × List PParcel) :
    List ResultRec :=
  if nat then
    (detectBlockBoundaries (g.2.map (·.parcel)) gap).flatMap fun b =>
      b.addresses.map (natRec bs g.1 b)
  else g.2.map (fixedRec bs)

/-- Stats-map update contributed by one street group. -/
def streetUpd (bs : Nat) (nat : Bool) (gap : Int) (s : StatsMap)
    (g : String × List PParcel) : StatsMap :=
  if nat then
    (detectBlockBoundaries (g.2.map (·.parcel)) gap).foldl (boundaryUpd bs g.1) s
  else g.2.foldl (fixedUpd bs) s

/-- A left fold whose step appends records and updates state splits into the
concatenation of the per-element records and the fold of the state updates. -/
theorem foldl_split {R S A : Type} (step : List R × S → A → List R × S)
    (E : A → List R) (U : S → A → S)
    (h : ∀ r s x, step (r, s) x = (r ++ E x, U s x)) :
    ∀ (l : List A) (r0 : List R) (s0 : S),
      l.foldl step (r0, s0) = (r0 ++ l.flatMap E, l.foldl U s0) := by
  intro l
  induction l with
  | nil => intro r0 s0; simp
  | cons x xs ih =>
    intro r0 s0
    simp only [List.foldl_cons, h, List.flatMap_cons, ih, List.append_assoc]

theorem flatMap_single {A B : Type} (l : List A) (f : A → B) :
    (l.flatMap fun a => [f a]) = l.map f := by
  induction l with
  | nil => rfl
  | cons b bs ih => simp [List.flatMap_cons, ih]

theorem phase1Step_shape (r : List ResultRec) (s : GroupMap) (p : Parcel) :
    phase1Step (r, s) p = (r ++ errOf p, groupUpd s p) := by
  unfold phase1Step errOf groupUpd
  cases parseAddress p.address <;> simp

theorem phase1_eq (parcels : List Parcel) :
    phase1 parcels = (parcels.flatMap errOf, parcels.foldl groupUpd []) := by
  unfold phase1
  rw [foldl_split phase1Step errOf groupUpd phase1Step_shape]
  simp

theorem fixedStep_shape (bs : Nat) (r : List ResultRec) (s : StatsMap) (pp : PParcel) :
    fixedStep bs (r, s) pp = (r ++ [fixedRec bs pp], fixedUpd bs s pp) := rfl

theorem boundaryAssign_shape (bs : Nat) (name : String) (r : List ResultRec)
    (s : StatsMap) (b : Boundary) :
    boundaryAssign bs name (r, s) b
      = (r ++ b.addresses.map (natRec bs name b), boundaryUpd bs name s b) := by
  unfold boundaryAssign boundaryUpd
  rw [foldl_split _ (fun a => [natRec bs name b a])
    (fun s3 a => bumpStats s3 (some (boundaryBid bs name b))
      a.parsed.fullStreet a.parsed.houseNumber) (fun _ _ _ => rfl)]
  rw [flatMap_single]

theorem streetStep_shape (bs : Nat) (nat : Bool) (gap : Int) (r : List ResultRec)
    (s : StatsMap) (g : String × List PParcel) :
    streetStep bs nat gap (r, s) g
      = (r ++ streetRecs bs nat gap g, streetUpd bs nat gap s g) := by
  unfold streetStep streetRecs streetUpd
  cases nat with
  | false =>
    simp only [if_false, Bool.false_eq_true]
    rw [foldl_split (fixedStep bs) (fun pp => [fixedRec bs pp]) (fixedUpd bs)
      (fun r2 s2 pp => fixedStep_shape bs r2 s2 pp), flatMap_single]
  | true =>
    simp only [if_true]
    rw [foldl_split (boundaryAssign bs g.1) (fun b => b.addresses.map (natRec bs g.1 b))
      (boundaryUpd bs g.1) (fun r2 s2 b => boundaryAssign_shape bs g.1 r2 s2 b)]

/-- Closed form of `assignBlockIds`. -/
theorem assignBlockIds_eq (parcels : List Parcel) (opts : AssignOptions) :
    assignBlockIds parcels opts =
      { parcels := parcels.flatMap errOf
          ++ (parcels.foldl groupUpd []).flatMap
              (streetRecs opts.blockSize opts.useNaturalBoundaries opts.gapThreshold)
        blockStats := (parcels.foldl groupUpd []).foldl
          (streetUpd opts.blockSize opts.useNaturalBoundaries opts.gapThreshold) []
        summary :=
          { totalParcels := parcels.length
            successfullyAssigned :=
              ((parcels.flatMap errOf
                ++ (parcels.foldl groupUpd []).flatMap
                    (streetRecs opts.blockSize opts.useNaturalBoundaries
                      opts.gapThreshold)).filter fun r => jsTruthyId r.block_id).length
            parseErrors :=
              ((parcels.flatMap errOf
                ++ (parcels.foldl groupUpd []).flatMap
                    (streetRecs opts.blockSize opts.useNaturalBoundaries
                      opts.gapThreshold)).filter (·.parse_error)).length
            uniqueBlocks :=
              ((parcels.foldl groupUpd []).foldl
                (streetUpd opts.blockSize opts.useNaturalBoundaries opts.gapThreshold)
                []).length
            uniqueStreets := (parcels.foldl groupUpd []).length } } := by
  unfold assignBlockIds
  simp only [phase1_eq]
  rw [foldl_split (streetStep opts.blockSize opts.useNaturalBoundaries opts.gapThreshold)
    (streetRecs opts.blockSize opts.useNaturalBoundaries opts.gapThreshold)
    (streetUpd opts.blockSize opts.useNaturalBoundaries opts.gapThreshold)
    (streetStep_shape opts.blockSize opts.useNaturalBoundaries opts.gapThreshold)]

theorem errOf_eq (parcels : List Parcel) :
    parcels.flatMap errOf = (parcels.filter unparsable).map mkErrRec := by
  induction parcels with
  | nil => rfl
  | cons p ps ih =>
    simp only [List.flatMap_cons, List.filter_cons]
    cases h : parseAddress p.address with
    | none => simp [errOf, h, ih, unparsable]
    | some pa => simp [errOf, h, ih, unparsable]

theorem groupUpd_eq (parcels : List Parcel) : ∀ g0 : GroupMap,
    parcels.foldl groupUpd g0
      = (parsables parcels).foldl (fun g x => addToGroup x.parsed.streetName x g) g0 := by
  induction parcels with
  | nil => intro g0; rfl
  | cons p ps ih =>
    intro g0
    simp only [List.foldl_cons, parsables, List.filterMap_cons]
    unfold groupUpd
    cases h : parseAddress p.address with
    | none => simpa [parsables] using ih g0
    | some pa => simpa [parsables] using ih (addToGroup pa.streetName ⟨p, pa⟩ g0)

theorem parsables_filter (parcels : List Parcel) :
    parsables (parcels.filter fun p => !unparsable p) = parsables parcels := by
  induction parcels with
  | nil => rfl
  | cons p ps ih =>
    simp only [List.filter_cons, parsables, unparsable]
    cases h : parseAddress p.address <;>
      simp_all [parsables, unparsable, List.filterMap_cons, h]

theorem streetRecs_parse_error (bs : Nat) (nat : Bool) (gap : Int)
    (g : String × List PParcel) :
    ∀ r ∈ streetRecs bs nat gap g, r.parse_error = false := by
  intro r hr
  unfold streetRecs at hr
  cases nat with
  | false =>
    simp only [Bool.false_eq_true, if_false, List.mem_map] at hr
    obtain ⟨pp, _, rfl⟩ := hr
    rfl
  | true =>
    simp only [if_true, List.mem_flatMap, List.mem_map] at hr
    obtain ⟨b, _, pp, _, rfl⟩ := hr
    rfl

theorem assign_filter_parse_error (parcels : List Parcel) (opts : AssignOptions) :
    (assignBlockIds parcels opts).parcels.filter (·.parse_error)
      = (parcels.filter unparsable).map mkErrRec := by
  rw [assignBlockIds_eq]
  simp only
  rw [List.filter_append]
  have h1 : (parcels.flatMap errOf).filter (·.parse_error) = parcels.flatMap errOf := by
    apply List.filter_eq_self.mpr
    intro r hr
    rw [errOf_eq] at hr
    obtain ⟨p, _, rfl⟩ := List.mem_map.mp hr
    rfl
  have h2 : (((parcels.foldl groupUpd []).flatMap
      (streetRecs opts.blockSize opts.useNaturalBoundaries opts.gapThreshold)).filter
        (·.parse_error)) = [] := by
    rw [List.filter_eq_nil_iff]
    intro r hr
    obtain ⟨g, _, hg⟩ := List.mem_flatMap.mp hr
    simp [streetRecs_parse_error _ _ _ _ r hg]
  rw [h1, h2, List.append_nil, errOf_eq]

theorem assign_groups_filter (parcels : List Parcel) :
    (parcels.filter fun p => !unparsable p).foldl groupUpd []
      = parcels.foldl groupUpd [] := by
  rw [groupUpd_eq, groupUpd_eq, parsables_filter]

/-- C4. Unparsable addresses (null, empty, no leading number) are tagged
`parse_error` with a null block id, never reach the street grouping or the
block statistics, and are counted once each in `summary.parseErrors`;
removing them changes neither `blockStats` nor `uniqueBlocks` nor
`uniqueStreets`. -/
theorem claim_C4_parse_error_isolation (parcels : List Parcel) (opts : AssignOptions) :
    parseAddress none = none
    ∧ parseAddress (some "") = none
    ∧ parseAddress (some "Woodward Ave") = none
    ∧ (assignBlockIds parcels opts).parcels.filter (·.parse_error)
        = (parcels.filter unparsable).map mkErrRec
    ∧ (assignBlockIds parcels opts).summary.parseErrors
        = (parcels.filter unparsable).length
    ∧ (assignBlockIds parcels opts).blockStats
        = (assignBlockIds (parcels.filter fun p => !unparsable p) opts).blockStats
    ∧ (assignBlockIds parcels opts).summary.uniqueBlocks
        = (assignBlockIds (parcels.filter fun p => !unparsable p) opts).summary.uniqueBlocks
    ∧ (assignBlockIds parcels opts).summary.uniqueStreets
        = (assignBlockIds (parcels.filter fun p => !unparsable p) opts).summary.uniqueStreets := by
  refine ⟨rfl, by decide, by decide, assign_filter_parse_error parcels opts, ?_, ?_, ?_, ?_⟩
  · have h := assign_filter_parse_error parcels opts
    rw [assignBlockIds_eq] at h ⊢
    simp only at h ⊢
    rw [h, List.length_map]
  · rw [assignBlockIds_eq, assignBlockIds_eq]
    simp only
    rw [assign_groups_filter]
  · rw [assignBlockIds_eq, assignBlockIds_eq]
    simp only
    rw [assign_groups_filter]
  · rw [assignBlockIds_eq, assignBlockIds_eq]
    simp only
    rw [assign_groups_filter]

/-! ### Spec-side characterization of the boundary grouping -/

/-- Spec-side description of where new boundary groups start: walking the
sorted house numbers from `prev`, a number opens a new group exactly when
its gap from the previous number strictly exceeds the threshold. -/
def specSplitStarts (t : Int) (prev : Nat) : List Nat → List Nat
  | [] => []
  | n :: rest =>
    if (n : Int) - (prev : Int) > t then n :: specSplitStarts t n rest
    else specSplitStarts t n rest

theorem detectLoop_map_start (rest : List PParcel) : ∀ (t : Int) (prev : Nat)
    (cur : Boundary),
    (detectLoop t prev cur rest).map (·.start)
      = cur.start :: specSplitStarts t prev (rest.map (·.parsed.houseNumber)) := by
  induction rest with
  | nil => intro t prev cur; simp [detectLoop, specSplitStarts]
  | cons a rest ih =>
    intro t prev cur
    simp only [detectLoop, List.map_cons, specSplitStarts]
    by_cases h : ((a.parsed.houseNumber : Int) - (prev : Int) > t) <;>
      simp [h, ih]

def c2Addrs : List Parcel :=
  [⟨1, some "1201 ELM ST"⟩, ⟨2, some "1205 ELM ST"⟩, ⟨3, some "1209 ELM ST"⟩,
   ⟨4, some "1215 ELM ST"⟩, ⟨5, some "1225 ELM ST"⟩, ⟨6, some "1235 ELM ST"⟩,
   ⟨7, some "1245 ELM ST"⟩, ⟨8, some "1255 ELM ST"⟩, ⟨9, some "1301 ELM ST"⟩,
   ⟨10, some "1305 ELM ST"⟩, ⟨11, some "1315 ELM ST"⟩]

/-- C2. A new boundary group starts exactly at a gap strictly above the
threshold; a gap of zero (equal house numbers) never splits for a
nonnegative threshold; and the example run [1201..1315] with threshold 50
stays one group from 1201 to 1315 (its largest gap, 46, is below 50). -/
theorem claim_C2_gap_splitting :
    (∀ (addrs : List Parcel) (t : Int) (n : Nat) (rest : List Nat),
      (detectSorted addrs).map (fun x => x.parsed.houseNumber) = n :: rest →
      (detectBlockBoundaries addrs t).map (·.start) = n :: specSplitStarts t n rest)
    ∧ (∀ t : Int, 0 ≤ t → ∀ (prev : Nat) (ns : List Nat),
        specSplitStarts t prev (prev :: ns) = specSplitStarts t prev ns)
    ∧ (detectBlockBoundaries c2Addrs 50).map (fun b => (b.start, b.stop))
        = [(1201, 1315)] := by
  refine ⟨?_, ?_, by decide⟩
  · intro addrs t n rest h
    unfold detectBlockBoundaries
    cases hs : detectSorted addrs with
    | nil => rw [hs] at h; simp at h
    | cons f fs =>
      rw [hs] at h
      simp only [List.map_cons, List.cons.injEq] at h
      rw [detectLoop_map_start, h.2, h.1]
  · intro t ht prev ns
    have h0 : ¬ ((prev : Int) - (prev : Int) > t) := by omega
    simp only [specSplitStarts, if_neg h0]

theorem claim_C2_witness :
    (detectBlockBoundaries c2Addrs 50).map (·.start)
      = 1201 :: specSplitStarts 50 1201
          [1205, 1209, 1215, 1225, 1235, 1245, 1255, 1301, 1305, 1315]
    ∧ specSplitStarts 50 7 [7, 20] = specSplitStarts 50 7 [20] := by
  constructor
  · exact claim_C2_gap_splitting.1 c2Addrs 50 1201
      [1205, 1209, 1215, 1225, 1235, 1245, 1255, 1301, 1305, 1315] (by decide)
  · exact claim_C2_gap_splitting.2.1 50 (by decide) 7 [20]

/-- C9. A parcel that parses with house number 0 ("0 Main St") gets a null
block id without a parse-error flag, is counted neither as successfully
assigned nor as a parse error (so the counters do not partition the input),
and `blockStats` acquires an entry under the null block id. -/
theorem claim_C9_house_number_zero :
    ((assignBlockIds [⟨1, some "0 Main St"⟩] {}).parcels.map
        fun r => (r.block_id, r.parse_error, r.block_method))
      = [(none, false, some "fixed_size")]
    ∧ (assignBlockIds [⟨1, some "0 Main St"⟩] {}).summary.successfullyAssigned = 0
    ∧ (assignBlockIds [⟨1, some "0 Main St"⟩] {}).summary.parseErrors = 0
    ∧ (assignBlockIds [⟨1, some "0 Main St"⟩] {}).summary.totalParcels = 1
    ∧ (assignBlockIds [⟨1, some "0 Main St"⟩] {}).summary.successfullyAssigned
        + (assignBlockIds [⟨1, some "0 Main St"⟩] {}).summary.parseErrors
        < (assignBlockIds [⟨1, some "0 Main St"⟩] {}).summary.totalParcels
    ∧ (assignBlockIds [⟨1, some "0 Main St"⟩] {}).blockStats.map Prod.fst = [none] := by
  refine ⟨by decide, by decide, by decide, by decide, by decide, by decide⟩

/-- C10. With natural boundaries, two gap-separated groups on one street
(starts 1201 and 1260, gap 59 > threshold 50) whose starts fall in the same
100-bin both get the id "elm_1200_1299", and their statistics merge into a
single blockStats entry. -/
theorem claim_C10_natural_mode_id_collision :
    ((detectBlockBoundaries [⟨1, some "1201 Elm St"⟩, ⟨2, some "1260 Elm St"⟩] 50).map
        fun b => (b.start, b.stop))
      = [(1201, 1201), (1260, 1260)]
    ∧ ((assignBlockIds [⟨1, some "1201 Elm St"⟩, ⟨2, some "1260 Elm St"⟩]
          ⟨100, true, 50⟩).parcels.map fun r => (r.parcel.pid, r.block_id))
      = [(1, some "elm_1200_1299"), (2, some "elm_1200_1299")]
    ∧ ((assignBlockIds [⟨1, some "1201 Elm St"⟩, ⟨2, some "1260 Elm St"⟩]
          ⟨100, true, 50⟩).blockStats.map fun e => (e.1, e.2.count))
      = [(some "elm_1200_1299", 2)]
    ∧ (assignBlockIds [⟨1, some "1201 Elm St"⟩, ⟨2, some "1260 Elm St"⟩]
        ⟨100, true, 50⟩).summary.uniqueBlocks = 1 := by
  refine ⟨by decide, by decide, by decide, by decide⟩

/-- C1 (amended): for a parsed address with house number at least 1 and a
positive block size, the fixed-size assigner returns
"{streetName}_{start}_{end}" with start = floor(h / blockSize) * blockSize
and end = start + blockSize - 1, and every house number in [1200, 1299]
(in particular the boundary numbers 1200 and 1299) maps to the bin
streetName_1200_1299 for blockSize 100.  (The unamended domain "h ≥ 0" is
refuted by `claim_C1_counterexample`: house number 0 is JS-falsy and yields
null.) -/
theorem claim_C1_fixed_size_id (pa : ParsedAddress) (bs : Nat)
    (hh : 1 ≤ pa.houseNumber) (_hbs : 1 ≤ bs) :
    generateBlockIdFromAddress (some pa) bs
      = some (pa.streetName ++ "_" ++ toString (pa.houseNumber / bs * bs) ++ "_"
          ++ toString (pa.houseNumber / bs * bs + bs - 1))
    ∧ (1200 ≤ pa.houseNumber → pa.houseNumber ≤ 1299 →
        generateBlockIdFromAddress (some pa) 100 = some (pa.streetName ++ "_1200_1299")) := by
  constructor
  · simp only [generateBlockIdFromAddress]
    rw [if_neg (by omega)]
  · intro h1 h2
    simp only [generateBlockIdFromAddress]
    rw [if_neg (by omega)]
    have hdiv : pa.houseNumber / 100 = 12 := by omega
    rw [hdiv]
    rw [String.append_assoc, String.append_assoc, String.append_assoc]
    have : ("_" ++ (toString (12 * 100) ++ ("_" ++ toString (12 * 100 + 100 - 1))))
        = "_1200_1299" := by decide
    rw [this]

theorem claim_C1_witness :
    generateBlockIdFromAddress (some ⟨1234, none, "woodward", some "AVE", "WOODWARD AVE"⟩) 100
      = some ("woodward" ++ "_" ++ toString (1234 / 100 * 100) ++ "_"
          ++ toString (1234 / 100 * 100 + 100 - 1))
    ∧ generateBlockIdFromAddress (some ⟨1200, none, "elm", some "ST", "ELM ST"⟩) 100
        = some ("elm" ++ "_1200_1299")
    ∧ generateBlockIdFromAddress (some ⟨1299, none, "elm", some "ST", "ELM ST"⟩) 100
        = some ("elm" ++ "_1200_1299") := by
  refine ⟨(claim_C1_fixed_size_id ⟨1234, none, "woodward", some "AVE", "WOODWARD AVE"⟩
      100 (by decide) (by decide)).1, ?_, ?_⟩
  · exact (claim_C1_fixed_size_id ⟨1200, none, "elm", some "ST", "ELM ST"⟩
      100 (by decide) (by decide)).2 (by decide) (by decide)
  · exact (claim_C1_fixed_size_id ⟨1299, none, "elm", some "ST", "ELM ST"⟩
      100 (by decide) (by decide)).2 (by decide) (by decide)

/-- C1 counterexample: on the claimed domain "house number ≥ 0" the assigner
is not total — a parsed address with house number 0 yields null, not the
string "main_0_99". -/
theorem claim_C1_counterexample :
    generateBlockIdFromAddress (some ⟨0, none, "main", some "ST", "MAIN ST"⟩) 100
      = none := by decide

/-- C3 counterexample: "15000 7 Mile Rd" does not get normalized street name
"7_mile_rd", and it is not handled by the fallback (its streetType capture
is "RD", which the fallback never sets). -/
theorem claim_C3_counterexample :
    (parseAddress (some "15000 7 Mile Rd")).map ParsedAddress.streetName
      ≠ some "7_mile_rd"
    ∧ (parseAddress (some "15000 7 Mile Rd")).map ParsedAddress.streetType
      ≠ some none := by
  refine ⟨by decide, by decide⟩

/-- C3 (amended): "15000 7 Mile Rd" is matched by the primary pattern ("RD"
is a recognized street type and the lazy street-name group captures
"7 MILE"), so the result has house number 15000, street type "RD", and
normalized street name "7_mile". -/
theorem claim_C3_seven_mile :
    parseAddress (some "15000 7 Mile Rd")
      = some ⟨15000, none, "7_mile", some "RD", "7 MILE RD"⟩ := by decide

/-! ### normalizeStreetName: idempotence and output alphabet -/

theorem toLowerCh_kept {c : Char} (h : isKeptCh c = true) : toLowerCh c = c := by
  unfold isKeptCh at h
  rw [decide_eq_true_eq] at h
  unfold toLowerCh
  rw [if_neg (by omega)]

theorem kept_not_ws {c : Char} (h : isKeptCh c = true) : isWSCh c = false := by
  unfold isKeptCh at h
  rw [decide_eq_true_eq] at h
  unfold isWSCh
  rw [decide_eq_false_iff_not]
  omega

theorem map_eq_self_of {A : Type} (f : A → A) (l : List A) (h : ∀ a ∈ l, f a = a) :
    l.map f = l := by
  induction l with
  | nil => rfl
  | cons a as ih =>
    simp only [List.map_cons, h a (List.mem_cons_self a as)]
    rw [ih fun b hb => h b (List.mem_cons_of_mem a hb)]

theorem dropWhile_eq_self_of {A : Type} (p : A → Bool) (l : List A)
    (h : ∀ a ∈ l, p a = false) : l.dropWhile p = l := by
  cases l with
  | nil => rfl
  | cons a as => simp [List.dropWhile_cons, h a (List.mem_cons_self a as)]

theorem trimChars_eq_self_of (l : List Char) (h : ∀ c ∈ l, isWSCh c = false) :
    trimChars l = l := by
  unfold trimChars
  rw [dropWhile_eq_self_of isWSCh l h]
  rw [dropWhile_eq_self_of isWSCh l.reverse fun c hc => h c (List.mem_reverse.mp hc)]
  exact List.reverse_reverse l

theorem collapseWS_eq_self_of : ∀ l : List Char, (∀ c ∈ l, isWSCh c = false) →
    collapseWS l = l := by
  intro l
  induction l with
  | nil => intro _; rfl
  | cons c cs ih =>
    intro h
    cases cs with
    | nil => simp [collapseWS, h c (List.mem_cons_self c [])]
    | cons d ds =>
      rw [collapseWS]
      rw [if_neg (by simp [h c (List.mem_cons_self c (d :: ds))])]
      rw [ih fun b hb => h b (List.mem_cons_of_mem c hb)]

theorem normChars_all_kept (l : List Char) : ∀ c ∈ normChars l, isKeptCh c = true := by
  intro c hc
  exact (List.mem_filter.mp hc).2

theorem normChars_of_kept (l : List Char) (h : ∀ c ∈ l, isKeptCh c = true) :
    normChars l = l := by
  have hnw : ∀ c ∈ l, isWSCh c = false := fun c hc => kept_not_ws (h c hc)
  unfold normChars
  rw [map_eq_self_of toLowerCh l fun c hc => toLowerCh_kept (h c hc)]
  rw [trimChars_eq_self_of l hnw, collapseWS_eq_self_of l hnw]
  exact List.filter_eq_self.mpr h

theorem normChars_idem (l : List Char) : normChars (normChars l) = normChars l :=
  normChars_of_kept (normChars l) (normChars_all_kept l)

/-- C6. `normalizeStreetName` is idempotent, its output uses only the
characters `[a-z0-9_]`, and empty / null / undefined input yields the empty
string. -/
theorem claim_C6_normalize_idempotent :
    (∀ s : String, normalizeStreetName (normalizeStreetName s) = normalizeStreetName s)
    ∧ (∀ s : String, ∀ c ∈ (normalizeStreetName s).data, isKeptCh c = true)
    ∧ normalizeStreetName "" = ""
    ∧ normalizeStreetNameOpt none = "" := by
  have hdata : ∀ s : String, ∀ c ∈ (normalizeStreetName s).data, isKeptCh c = true := by
    intro s c hc
    unfold normalizeStreetName at hc
    by_cases hs : s = ""
    · rw [if_pos hs] at hc
      simp at hc
    · rw [if_neg hs] at hc
      exact normChars_all_kept s.data c hc
  refine ⟨?_, hdata, rfl, rfl⟩
  intro s
  by_cases hs : s = ""
  · rw [hs]; rfl
  · have h1 : normalizeStreetName s = String.mk (normChars s.data) := by
      unfold normalizeStreetName
      rw [if_neg hs]
    by_cases h2 : normalizeStreetName s = ""
    · rw [h2]; rfl
    · rw [h1] at h2 ⊢
      unfold normalizeStreetName
      rw [if_neg h2]
      show String.mk (normChars (normChars s.data)) = String.mk (normChars s.data)
      rw [normChars_idem]

theorem claim_C6_witness :
    normalizeStreetName (normalizeStreetName "A  b!C") = normalizeStreetName "A  b!C"
    ∧ isKeptCh 'a' = true := by
  refine ⟨claim_C6_normalize_idempotent.1 "A  b!C", ?_⟩
  exact claim_C6_normalize_idempotent.2.1 "A  b!C" 'a' (by decide)

/-! ### validateBlockAssignments: severities and triggering conditions -/

theorem validateIssuesFor_sev (k : Option String) (s : BlockStats) :
    ∀ i ∈ validateIssuesFor k s,
      (i.severity = "warning" ∧ i.type = "sparse_block")
      ∨ (i.severity = "info" ∧ i.type = "small_block") := by
  intro i hi
  unfold validateIssuesFor at hi
  cases hmx : s.maxNumber <;> cases hmn : s.minNumber <;> rw [hmx, hmn] at hi <;>
    simp only [List.mem_append] at hi <;>
    split_ifs at hi <;>
    simp only [List.mem_singleton, List.not_mem_nil, or_false, false_or] at hi
  all_goals first
    | exact hi.elim
    | (rcases hi with rfl | rfl <;> simp)

theorem validate_valid (a : AssignResult) : (validateBlockAssignments a).1 = true := by
  unfold validateBlockAssignments
  simp only [decide_eq_true_eq]
  rw [List.length_eq_zero, List.filter_eq_nil_iff]
  intro i hi
  obtain ⟨e, _, hie⟩ := List.mem_flatMap.mp hi
  rcases validateIssuesFor_sev e.1 e.2 i hie with ⟨h1, _⟩ | ⟨h1, _⟩ <;> simp [h1]

theorem validateIssuesFor_iff (k : Option String) (s : BlockStats) (mn mx : Nat)
    (hmn : s.minNumber = some mn) (hmx : s.maxNumber = some mx) :
    (((validateIssuesFor k s).any fun i => i.type = "sparse_block") = true
      ↔ 10 * (s.count : Int) < 3 * (Int.fdiv ((mx : Int) - (mn : Int)) 2 + 1))
    ∧ (((validateIssuesFor k s).any fun i => i.type = "small_block") = true
      ↔ s.count < 3) := by
  unfold validateIssuesFor
  rw [hmn, hmx]
  by_cases h1 : 10 * (s.count : Int) < 3 * (Int.fdiv ((mx : Int) - (mn : Int)) 2 + 1) <;>
    by_cases h2 : s.count < 3 <;>
    simp [h1, h2]

/-- C8. `validateBlockAssignments` never blocks: `valid` is always true,
every issue is a "warning" sparse_block or an "info" small_block, and for a
well-formed stats entry the sparse issue fires exactly when
10·count < 3·(floor((max-min)/2)+1) (i.e. count < 30% of the expected
count) and the small issue exactly when count < 3. -/
theorem claim_C8_validator_nonfatal (a : AssignResult) :
    (validateBlockAssignments a).1 = true
    ∧ (∀ i ∈ (validateBlockAssignments a).2,
        (i.severity = "warning" ∧ i.type = "sparse_block")
        ∨ (i.severity = "info" ∧ i.type = "small_block"))
    ∧ (∀ (k : Option String) (s : BlockStats), (k, s) ∈ a.blockStats →
        ∀ mn mx : Nat, s.minNumber = some mn → s.maxNumber = some mx →
        (((validateIssuesFor k s).any fun i => i.type = "sparse_block") = true
          ↔ 10 * (s.count : Int) < 3 * (Int.fdiv ((mx : Int) - (mn : Int)) 2 + 1))
        ∧ (((validateIssuesFor k s).any fun i => i.type = "small_block") = true
          ↔ s.count < 3)) := by
  refine ⟨validate_valid a, ?_, ?_⟩
  · intro i hi
    unfold validateBlockAssignments at hi
    simp only at hi
    obtain ⟨e, _, hie⟩ := List.mem_flatMap.mp hi
    exact validateIssuesFor_sev e.1 e.2 i hie
  · intro k s _ mn mx hmn hmx
    exact validateIssuesFor_iff k s mn mx hmn hmx

def c8Ex : AssignResult :=
  ⟨[], [(some "b", ⟨1, some 10, some 50, "B ST"⟩)], ⟨0, 0, 0, 1, 1⟩⟩

theorem claim_C8_witness :
    (validateBlockAssignments c8Ex).1 = true
    ∧ ((validateIssuesFor (some "b") ⟨1, some 10, some 50, "B ST"⟩).any
        fun i => i.type = "small_block") = true := by
  refine ⟨(claim_C8_validator_nonfatal c8Ex).1, ?_⟩
  exact ((claim_C8_validator_nonfatal c8Ex).2.2 (some "b")
    ⟨1, some 10, some 50, "B ST"⟩ (by decide) 10 50 rfl rfl).2.mpr (by decide)

/-! ### block-detector.js geometry layer

The turf.js primitives (distance, lineSlice, bbox, center, buffer,
booleanPointInPolygon, centroid) are an external dependency, not code of
this repository; they are abstracted as operation records over opaque
point/geometry types, and the control flow of `createBlockSegments` and
`assignParcelsToBlocks` is embedded faithfully on top of them.
`turf.distance` returns kilometers, so the source threshold `0.01`
("> 10 meters") is 1/100.  The try/catch wrappers around the turf calls
only log and skip on a thrown exception; the abstract operations are total,
so the embedding models the non-throwing executions. -/

/-- `generateBlockId(streetName, fromCross, toCross)` from block-detector.js. -/
def generateBlockId (streetName fromCross toCross : String) : String :=
  String.intercalate "_"
    (([streetName, fromCross, toCross].map normalizeStreetName).filter
      fun n => decide (0 < n.length))

structure Intersection (Pt : Type) where
  point : Pt
  crossStreet : String

/-- A street feature: its name, the first and last entries of
`geometry.coordinates`, and its geometry. -/
structure StreetFeat (Pt Geom : Type) where
  street_name : String
  firstCoord : Pt
  lastCoord : Pt
  geometry : Geom

/-- The turf.js operations used by `createBlockSegments`. -/
structure SegOps (Pt Geom BB : Type) where
  dist : Pt → Pt → ℚ
  lineSlice : Pt → Pt → StreetFeat Pt Geom → Geom
  bbox : Geom → BB
  centerOf : Geom → Pt

/-- One emitted block segment; the whole-street segment (zero
intersections) carries no `center` field, modelled as `none`. -/
structure BlockSegment (Pt Geom BB : Type) where
  blockId : String
  streetName : String
  fromCrossStreet : String
  toCrossStreet : String
  geometry : Geom
  bounds : BB
  center : Option Pt

/-- `createBlockSegments(street, sortedIntersections)`. -/
def createBlockSegments {Pt Geom BB : Type} (S : SegOps Pt Geom BB)
    (street : StreetFeat Pt Geom) (ints : List (Intersection Pt)) :
    List (BlockSegment Pt Geom BB) :=
  match ints with
  | [] =>
    [⟨generateBlockId street.street_name "start" "end", street.street_name,
      "start", "end", street.geometry, S.bbox street.geometry, none⟩]
  | f :: rest =>
    let name := street.street_name
    let interior := ((f :: rest).zip rest).map fun ab =>
      let g := S.lineSlice ab.1.point ab.2.point street
      (⟨generateBlockId name ab.1.crossStreet ab.2.crossStreet, name,
        ab.1.crossStreet, ab.2.crossStreet, g, S.bbox g, some (S.centerOf g)⟩ :
        BlockSegment Pt Geom BB)
    let lastI := (f :: rest).getLast (List.cons_ne_nil f rest)
    let s1 :=
      if S.dist street.firstCoord f.point > 1 / 100 then
        (let g := S.lineSlice street.firstCoord f.point street
         (⟨generateBlockId name "start" f.crossStreet, name, "start",
           f.crossStreet, g, S.bbox g, some (S.centerOf g)⟩ :
           BlockSegment Pt Geom BB)) :: interior
      else interior
    if S.dist lastI.point street.lastCoord > 1 / 100 then
      s1 ++
        [let g := S.lineSlice lastI.point street.lastCoord street
         (⟨generateBlockId name lastI.crossStreet "end", name,
           lastI.crossStreet, "end", g, S.bbox g, some (S.centerOf g)⟩ :
           BlockSegment Pt Geom BB)]
    else s1

/-- Concrete instantiation for the spec's contiguity example: points are
rational positions in meters on a line, distance is converted to km. -/
def segOpsEx : SegOps ℚ (ℚ × ℚ) (ℚ × ℚ) where
  dist := fun a b => (if a ≤ b then b - a else a - b) / 1000
  lineSlice := fun a b _ => (a, b)
  bbox := id
  centerOf := fun g => (g.1 + g.2) / 2

def streetEx : StreetFeat ℚ (ℚ × ℚ) := ⟨"main", 0, 100, (0, 100)⟩

def intsEx : List (Intersection ℚ) := [⟨10, "a"⟩, ⟨40, "b"⟩, ⟨70, "c"⟩]

theorem createBlockSegments_fromto {Pt Geom BB : Type} (S : SegOps Pt Geom BB)
    (street : StreetFeat Pt Geom) (f : Intersection Pt)
    (rest : List (Intersection Pt)) :
    (createBlockSegments S street (f :: rest)).map
        (fun sg => (sg.fromCrossStreet, sg.toCrossStreet))
      = (if S.dist street.firstCoord f.point > 1 / 100 then
          [("start", f.crossStreet)] else [])
        ++ ((f :: rest).zip rest).map
            (fun ab => (ab.1.crossStreet, ab.2.crossStreet))
        ++ (if S.dist ((f :: rest).getLast (List.cons_ne_nil f rest)).point
              street.lastCoord > 1 / 100 then
            [(((f :: rest).getLast (List.cons_ne_nil f rest)).crossStreet, "end")]
          else []) := by
  simp only [createBlockSegments]
  split_ifs <;> simp [List.map_append, List.map_map, Function.comp]

/-- C5. Zero intersections give exactly one whole-street segment with the
"start"/"end" sentinels; otherwise the emitted (from, to) boundary pairs
are: a leading ("start", first) pair iff the physical start is strictly
farther than 10 m (1/100 km) from the first intersection, one pair per
consecutive intersection pair, and a trailing (last, "end") pair iff the
physical end is strictly farther than 10 m from the last intersection.  On
the spec example (intersections at 10/40/70 m of a 100 m line) the leading
distance is exactly 10 m, so only the two interior segments and the
trailing segment appear. -/
theorem claim_C5_segmentation :
    (∀ {Pt Geom BB : Type} (S : SegOps Pt Geom BB) (street : StreetFeat Pt Geom),
      createBlockSegments S street []
        = [⟨generateBlockId street.street_name "start" "end", street.street_name,
            "start", "end", street.geometry, S.bbox street.geometry, none⟩])
    ∧ (∀ {Pt Geom BB : Type} (S : SegOps Pt Geom BB) (street : StreetFeat Pt Geom)
        (f : Intersection Pt) (rest : List (Intersection Pt)),
        (createBlockSegments S street (f :: rest)).map
            (fun sg => (sg.fromCrossStreet, sg.toCrossStreet))
          = (if S.dist street.firstCoord f.point > 1 / 100 then
              [("start", f.crossStreet)] else [])
            ++ ((f :: rest).zip rest).map
                (fun ab => (ab.1.crossStreet, ab.2.crossStreet))
            ++ (if S.dist ((f :: rest).getLast (List.cons_ne_nil f rest)).point
                  street.lastCoord > 1 / 100 then
                [(((f :: rest).getLast (List.cons_ne_nil f rest)).crossStreet, "end")]
              else []))
    ∧ (createBlockSegments segOpsEx streetEx intsEx).map
          (fun sg => (sg.fromCrossStreet, sg.toCrossStreet))
        = [("a", "b"), ("b", "c"), ("c", "end")] := by
  refine ⟨fun S street => rfl,
    fun S street f rest => createBlockSegments_fromto S street f rest, ?_⟩
  rw [show intsEx = ⟨10, "a"⟩ :: [⟨40, "b"⟩, ⟨70, "c"⟩] from rfl]
  rw [createBlockSegments_fromto segOpsEx streetEx ⟨10, "a"⟩ [⟨40, "b"⟩, ⟨70, "c"⟩]]
  have h1 : ¬ (segOpsEx.dist streetEx.firstCoord
      (Intersection.point ⟨10, "a"⟩) > 1 / 100) := by
    norm_num [segOpsEx, streetEx]
  have h2 : segOpsEx.dist
      (Intersection.point ((⟨10, "a"⟩ :: [⟨40, "b"⟩, ⟨70, "c"⟩] :
        List (Intersection ℚ)).getLast (List.cons_ne_nil _ _)))
      streetEx.lastCoord > 1 / 100 := by
    norm_num [segOpsEx, streetEx, List.getLast]
  rw [if_neg h1, if_pos h2]
  simp [List.getLast]

/-! ### assignParcelsToBlocks -/

/-- A detected block as consumed by `assignParcelsToBlocks`: its id plus
its geometric payload (everything `createBlockPolygon` buffers). -/
structure GBlock (Geom : Type) where
  blockId : String
  geom : Geom

/-- The turf.js operations used by `assignParcelsToBlocks`:
`centroid`, `createBlockPolygon` (null on buffering error, hence `Option`),
and `booleanPointInPolygon`. -/
structure SpatialOps (GParcel Pt Poly Geom : Type) where
  centroid : GParcel → Pt
  buffer : GBlock Geom → Option Poly
  pip : Pt → Poly → Bool

/-- JS `Map.set` on the blockId-keyed parcel map. -/
def pmSet {GParcel : Type} (k : String) (v : List GParcel) :
    List (String × List GParcel) → List (String × List GParcel)
  | [] => [(k, v)]
  | e :: rest => if e.1 = k then (k, v) :: rest else e :: pmSet k v rest

/-- `blockParcels.get(blockId).push(parcel)`; the key is always present
when this runs (the map was initialized from the same block list). -/
def pmPush {GParcel : Type} (k : String) (p : GParcel) :
    List (String × List GParcel) → List (String × List GParcel)
  | [] => []
  | e :: rest => if e.1 = k then (k, e.2 ++ [p]) :: rest else e :: pmPush k p rest

/-- The blocks that buffered successfully, paired with their polygons. -/
def blockPolygonsOf {GParcel Pt Poly Geom : Type}
    (S : SpatialOps GParcel Pt Poly Geom) (blocks : List (GBlock Geom)) :
    List (GBlock Geom × Poly) :=
  blocks.filterMap fun b => (S.buffer b).map fun poly => (b, poly)

/-- The id of the first block (in input order) whose buffered corridor
contains the parcel's centroid — the for/break search of the JS loop. -/
def firstMatchId {GParcel Pt Poly Geom : Type}
    (S : SpatialOps GParcel Pt Poly Geom) (blocks : List (GBlock Geom))
    (p : GParcel) : Option String :=
  ((blockPolygonsOf S blocks).find? fun bp => S.pip (S.centroid p) bp.2).map
    fun bp => bp.1.blockId

/-- `assignParcelsToBlocks(parcels, blocks)`. -/
def assignParcelsToBlocks {GParcel Pt Poly Geom : Type}
    (S : SpatialOps GParcel Pt Poly Geom) (parcels : List GParcel)
    (blocks : List (GBlock Geom)) : List (String × List GParcel) :=
  let m0 := blocks.foldl (fun m b => pmSet b.blockId [] m) []
  parcels.foldl
    (fun m p =>
      match (blockPolygonsOf S blocks).find? (fun bp => S.pip (S.centroid p) bp.2) with
      | some bp => pmPush bp.1.blockId p m
      | none => m) m0

theorem pmSet_fresh {GParcel : Type} (k : String) (v : List GParcel)
    (m : List (String × List GParcel)) (h : ∀ e ∈ m, e.1 ≠ k) :
    pmSet k v m = m ++ [(k, v)] := by
  induction m with
  | nil => rfl
  | cons e rest ih =>
    rw [pmSet, if_neg (h e (List.mem_cons_self e rest))]
    rw [ih fun x hx => h x (List.mem_cons_of_mem e hx)]
    rfl

theorem pmInit_eq {GParcel Geom : Type} :
    ∀ (blocks : List (GBlock Geom)) (m : List (String × List GParcel)),
    (∀ b ∈ blocks, ∀ e ∈ m, e.1 ≠ b.blockId) → (blocks.map (·.blockId)).Nodup →
    blocks.foldl (fun m2 b => pmSet b.blockId [] m2) m
      = m ++ blocks.map fun b => (b.blockId, []) := by
  intro blocks
  induction blocks with
  | nil => intro m _ _; simp
  | cons b bs ih =>
    intro m hfresh hnd
    rw [List.foldl_cons, pmSet_fresh b.blockId [] m
      (hfresh b (List.mem_cons_self b bs))]
    rw [List.map_cons, List.nodup_cons] at hnd
    rw [ih (m ++ [(b.blockId, [])]) ?_ hnd.2]
    · simp
    · intro b2 hb2 e he
      rcases List.mem_append.mp he with h1 | h2
      · exact hfresh b2 (List.mem_cons_of_mem b hb2) e h1
      · rw [List.mem_singleton.mp h2]
        intro hcontra
        have heq : b.blockId = b2.blockId := hcontra
        exact hnd.1 (by rw [heq]; exact List.mem_map_of_mem (·.blockId) hb2)

theorem pmPush_map {GParcel Geom : Type} :
    ∀ (blocks : List (GBlock Geom)) (F : GBlock Geom → List GParcel) (k : String)
      (p : GParcel), (blocks.map (·.blockId)).Nodup → (∃ b ∈ blocks, b.blockId = k) →
    pmPush k p (blocks.map fun b => (b.blockId, F b))
      = blocks.map fun b => (b.blockId, F b ++ if b.blockId = k then [p] else []) := by
  intro blocks
  induction blocks with
  | nil => intro F k p _ hk; exact absurd hk (by simp)
  | cons b bs ih =>
    intro F k p hnd hk
    rw [List.map_cons, List.nodup_cons] at hnd
    rw [List.map_cons, List.map_cons, pmPush]
    by_cases hb : b.blockId = k
    · rw [if_pos hb, if_pos hb, hb]
      congr 1
      apply List.map_congr_left
      intro b2 hb2
      have : b2.blockId ≠ k := by
        intro hc
        exact hnd.1 ((hb.trans hc.symm) ▸ List.mem_map_of_mem (·.blockId) hb2)
      rw [if_neg this, List.append_nil]
    · rw [if_neg hb, if_neg hb, List.append_nil]
      congr 1
      apply ih F k p hnd.2
      rcases hk with ⟨b2, hb2, hbk⟩
      rcases List.mem_cons.mp hb2 with rfl | hmem
      · exact absurd hbk hb
      · exact ⟨b2, hmem, hbk⟩

theorem assignLoop_eq {GParcel Pt Poly Geom : Type}
    (S : SpatialOps GParcel Pt Poly Geom) (blocks : List (GBlock Geom))
    (hnd : (blocks.map (·.blockId)).Nodup) :
    ∀ (ps : List GParcel) (F : GBlock Geom → List GParcel),
    ps.foldl
        (fun m p =>
          match (blockPolygonsOf S blocks).find? (fun bp => S.pip (S.centroid p) bp.2) with
          | some bp => pmPush bp.1.blockId p m
          | none => m)
        (blocks.map fun b => (b.blockId, F b))
      = blocks.map fun b =>
          (b.blockId,
           F b ++ ps.filter fun p => decide (firstMatchId S blocks p = some b.blockId)) := by
  intro ps
  induction ps with
  | nil => intro F; simp
  | cons p ps ih =>
    intro F
    rw [List.foldl_cons]
    cases hf : (blockPolygonsOf S blocks).find? (fun bp => S.pip (S.centroid p) bp.2) with
    | none =>
      rw [ih F]
      apply List.map_congr_left
      intro b _
      rw [List.filter_cons]
      rw [if_neg (by simp [firstMatchId, hf])]
    | some bp =>
      have hmem : bp.1 ∈ blocks := by
        have h1 := List.mem_of_find?_eq_some hf
        obtain ⟨b2, hb2, hb2e⟩ := List.mem_filterMap.mp h1
        cases hbuf : S.buffer b2 with
        | none => rw [hbuf] at hb2e; simp at hb2e
        | some poly =>
          rw [hbuf] at hb2e
          have heq : (b2, poly) = bp := by simpa using hb2e
          rw [← heq]
          exact hb2
      dsimp only
      rw [pmPush_map blocks F bp.1.blockId p hnd ⟨bp.1, hmem, rfl⟩]
      rw [ih fun b => F b ++ if b.blockId = bp.1.blockId then [p] else []]
      apply List.map_congr_left
      intro b _
      have hfm : firstMatchId S blocks p = some bp.1.blockId := by
        simp [firstMatchId, hf]
      by_cases hb : b.blockId = bp.1.blockId
      · simp [List.filter_cons, hfm, hb]
      · simp [List.filter_cons, hfm, hb, Ne.symm hb]

/-- C7. With distinct block ids, `assignParcelsToBlocks` sends each parcel
to the membership list of the first block (in input order) whose buffered
corridor contains the parcel's centroid: every membership list is exactly
the parcels whose first match is that block, a parcel appears in at most
one list, and a parcel matching no corridor appears in none (and produces
no error). -/
theorem claim_C7_first_match_exclusive {GParcel Pt Poly Geom : Type}
    (S : SpatialOps GParcel Pt Poly Geom) (parcels : List GParcel)
    (blocks : List (GBlock Geom)) (hnd : (blocks.map (·.blockId)).Nodup) :
    assignParcelsToBlocks S parcels blocks
      = (blocks.map fun b =>
          (b.blockId,
           parcels.filter fun p => decide (firstMatchId S blocks p = some b.blockId)))
    ∧ (∀ (p : GParcel) (k1 k2 : String) (l1 l2 : List GParcel),
        (k1, l1) ∈ assignParcelsToBlocks S parcels blocks →
        (k2, l2) ∈ assignParcelsToBlocks S parcels blocks →
        p ∈ l1 → p ∈ l2 → k1 = k2)
    ∧ (∀ p : GParcel, firstMatchId S blocks p = none →
        ∀ k l, (k, l) ∈ assignParcelsToBlocks S parcels blocks → p ∉ l) := by
  have hmain : assignParcelsToBlocks S parcels blocks
      = blocks.map fun b =>
          (b.blockId,
           parcels.filter fun p => decide (firstMatchId S blocks p = some b.blockId)) := by
    unfold assignParcelsToBlocks
    rw [pmInit_eq blocks [] (by simp) hnd, List.nil_append]
    rw [assignLoop_eq S blocks hnd parcels fun _ => []]
    simp
  refine ⟨hmain, ?_, ?_⟩
  · intro p k1 k2 l1 l2 h1 h2 hp1 hp2
    rw [hmain] at h1 h2
    obtain ⟨b1, _, hb1⟩ := List.mem_map.mp h1
    obtain ⟨b2, _, hb2⟩ := List.mem_map.mp h2
    rw [Prod.mk.injEq] at hb1 hb2
    have hf1 : firstMatchId S blocks p = some k1 := by
      have := (List.mem_filter.mp (hb1.2 ▸ hp1)).2
      rw [decide_eq_true_eq] at this
      rw [this, hb1.1]
    have hf2 : firstMatchId S blocks p = some k2 := by
      have := (List.mem_filter.mp (hb2.2 ▸ hp2)).2
      rw [decide_eq_true_eq] at this
      rw [this, hb2.1]
    exact Option.some.inj (hf1.symm.trans hf2)
  · intro p hnone k l hkl hp
    rw [hmain] at hkl
    obtain ⟨b, _, hb⟩ := List.mem_map.mp hkl
    rw [Prod.mk.injEq] at hb
    have := (List.mem_filter.mp (hb.2 ▸ hp)).2
    rw [decide_eq_true_eq, hnone] at this
    exact Option.noConfusion this

def spatialOpsEx : SpatialOps Nat Nat Nat Nat where
  centroid := id
  buffer := fun b => some b.geom
  pip := fun pt poly => decide (pt = poly)

def blocksEx : List (GBlock Nat) := [⟨"b1", 5⟩, ⟨"b2", 7⟩]

theorem claim_C7_witness :
    assignParcelsToBlocks spatialOpsEx [5, 7, 9] blocksEx
      = blocksEx.map fun b =>
          ([5, 7, 9].filter fun p =>
            decide (firstMatchId spatialOpsEx blocksEx p = some b.blockId)) |>
          fun l => (b.blockId, l) := by
  have h := (claim_C7_first_match_exclusive spatialOpsEx [5, 7, 9] blocksEx
    (by decide)).1
  exact h

end DBA
